import Mathlib

/-!
# common-go/oauth2: SQL configuration repository

A shallow embedding of `sql_configuration_repository.go` together with the
properties established about it.

Conventions of the embedding

* Go strings are Lean strings; `strings.Split`, `strings.Contains` and
  `strings.ToLower` are given by structural recursion on the characters. The
  case table of the `unicode` package, which `strings.ToLower` consults above
  ASCII, is a parameter.
* A Go `error` result is an `Option Error` (`none` is `nil`).
* A run-time panic is the `Except.error` side of `Except Panic _`.
* `map[string]int` is an association list read with `List.lookup`; an
  assignment `m[k] = v` puts the pair in front, where it shadows older ones.
* `*sql.Rows` is a record holding the column listing, the rows not yet
  reached, the row the cursor stands on and the closed flag.
-/

set_option autoImplicit false

namespace OAuth2

/-! ## Strings -/

/-- Pieces of a character list between occurrences of `sep`. -/
def splitChars (sep : Char) : List Char → List (List Char)
  | [] => [[]]
  | c :: cs =>
    if c = sep then [] :: splitChars sep cs
    else
      match splitChars sep cs with
      | [] => [[c]]
      | p :: ps => (c :: p) :: ps

/-- Go `strings.Split(s, sep)` for a separator of one character. -/
def Split (s : String) (sep : Char) : List String :=
  (splitChars sep s.data).map String.mk

/-- Whether `sub` occurs in `s` as a contiguous run of characters. -/
def containsChars : List Char → List Char → Bool
  | [], sub => sub.isPrefixOf []
  | c :: t, sub => sub.isPrefixOf (c :: t) || containsChars t sub

/-- Go `strings.Contains(s, substr)`. -/
def Contains (s substr : String) : Bool :=
  containsChars s.data substr.data

/-- The lower-case mapping of the `unicode` package for the code points above
ASCII, `unicode.To(unicode.LowerCase, r)`. -/
abbrev CaseTable := Char → Char

/-- Go `unicode.ToLower(r)`: the letter shift of the Go source for ASCII, the
case table above ASCII. -/
def runeToLower (lower : CaseTable) (r : Char) : Char :=
  if r.toNat < 128 then r.toLower else lower r

/-- Go `strings.ToLower(s)`: every code point is replaced by its lower case. -/
def ToLower (lower : CaseTable) (s : String) : String :=
  String.mk (s.data.map (runeToLower lower))

/-! ## Errors and panics -/

deriving instance DecidableEq for Except

/-- Values of the Go `error` interface that occur in this file. -/
inductive Error where
  /-- The sentinel `sql.ErrNoRows`. -/
  | ErrNoRows
  /-- The value of `errors.New("bad type")`. -/
  | badType
  /-- An error reported by the driver or by `database/sql`. -/
  | driver (msg : String)
  /-- The error of `rows.Scan`: wrong number of destination arguments. -/
  | scanArity (want got : Nat)
  /-- The error of `rows.Scan`: the value of column `index` does not convert. -/
  | scanColumn (index : Nat)
  /-- The error of `rows.Scan` when `Next` was not called before. -/
  | scanWithoutNext
  /-- The error `sql: Rows are closed`. -/
  | rowsClosed
  deriving DecidableEq

/-- Run-time panics that the code can raise. -/
inductive Panic where
  /-- Slice access `xs[index]` with `index` outside `0 .. length-1`. -/
  | indexOutOfRange (index length : Nat)
  /-- Call of `reflect.Value.Field` with a position that is no field. -/
  | fieldIndexOutOfRange (index : Int) (numField : Nat)
  /-- Method call through a nil pointer or nil interface. -/
  | nilDereference
  /-- Call of `reflect.Value.Interface` on a value obtained from the unexported
  field at position `index`. -/
  | unexportedField (index : Nat)
  deriving DecidableEq

/-! ## Types, values and struct tags -/

/-- The kinds of `reflect.Kind` that the embedding tells apart. -/
inductive Kind where
  | Bool | Int | Int64 | String | Slice | Map | Ptr | Interface | Struct
  deriving DecidableEq

/-- A declared struct field as seen through `reflect.StructField`. -/
structure StructField where
  /-- Name of the field. -/
  Name : String
  /-- The package path that qualifies the name of an unexported field; it is
  empty for an exported field. -/
  PkgPath : String := ""
  /-- Kind of the field's type. -/
  Typ : Kind
  /-- The result of `field.Tag.Get("gorm")`. -/
  gorm : String
  deriving DecidableEq

/-- Go `field.IsExported()`. -/
def StructField.IsExported (f : StructField) : Bool := f.PkgPath = ""

/-- A type descriptor (`reflect.Type`). -/
inductive RType where
  /-- A struct type with its declared fields, in declaration order. -/
  | struct (fields : List StructField)
  /-- A type of any other kind. -/
  | basic (kind : Kind)
  deriving DecidableEq

/-- Go `modelType.Kind()`. -/
def RType.Kind : RType → Kind
  | .struct _ => .Struct
  | .basic k => k

/-- Declared fields of a struct type (`NumField` and `Field`). -/
def RType.Fields : RType → List StructField
  | .struct fields => fields
  | .basic _ => []

/-- Go `modelType.NumField()` on a struct type. -/
def RType.NumField (t : RType) : Nat := t.Fields.length

/-- A binding map `map[string]int`. -/
abbrev FieldsIndex := List (String × Int)

/-- Map read `m[k]` in its two-result form. -/
def FieldsIndex.get (m : FieldsIndex) (k : String) : Option Int := List.lookup k m

/-- Map write `m[k] = v`. -/
def FieldsIndex.set (m : FieldsIndex) (k : String) (v : Int) : FieldsIndex := (k, v) :: m

/-! ## Tag parsing -/

/-- The inner loop of `FindTag` over `j`, started at the parts `str2[j:]`;
`len` is `len(str2)`. The result `none` means that the loop ended without a
`return`. -/
def FindTag.parts (key : String) (len : Nat) : List String → Option (Except Panic (String × Bool))
  | [] => none
  | part :: rest =>
    if part = key then
      match rest with
      | [] => some (.error (.indexOutOfRange len len))
      | value :: _ => some (.ok (value, true))
    else FindTag.parts key len rest

/-- The outer loop of `FindTag` over `i`, started at the segments `str1[i:]`. -/
def FindTag.segments (key : String) : List String → Except Panic (String × Bool)
  | [] => .ok ("", false)
  | seg :: rest =>
    let str2 := Split seg ':'
    match FindTag.parts key str2.length str2 with
    | some r => r
    | none => FindTag.segments key rest

/-- Go `FindTag(tag, key)`. -/
def FindTag (tag : String) (key : String) : Except Panic (String × Bool) :=
  if Contains tag key then
    FindTag.segments key (Split tag ';')
  else .ok ("", false)

/-- The loop of `GetColumnIndexes` over `i`, started at field `i` with the
fields `i ..` still to visit. -/
def GetColumnIndexes.loop : Nat → List StructField → FieldsIndex → Except Panic FieldsIndex
  | _, [], mapp => .ok mapp
  | i, field :: rest, mapp =>
    let ormTag := field.gorm
    match FindTag ormTag "column" with
    | .error p => .error p
    | .ok (column, ok) =>
      GetColumnIndexes.loop (i + 1) rest (if ok then mapp.set column (i : Int) else mapp)

/-- Go `GetColumnIndexes(modelType)`. -/
def GetColumnIndexes (modelType : RType) : Except Panic (FieldsIndex × Option Error) :=
  let mapp : FieldsIndex := []
  if modelType.Kind ≠ Kind.Struct then
    .ok (mapp, some Error.badType)
  else
    match GetColumnIndexes.loop 0 modelType.Fields mapp with
    | .error p => .error p
    | .ok mapp => .ok (mapp, none)

/-! ## Values and destinations -/

/-- A database value as handed over by the driver, and the content of a
destination field. -/
inductive Value where
  | null
  | bool (b : Bool)
  | int (n : Int)
  | str (s : String)
  deriving DecidableEq

/-- The zero value of a field of the given kind. -/
def zeroValue : Kind → Value
  | .Bool => .bool false
  | .Int => .int 0
  | .Int64 => .int 0
  | .String => .str ""
  | _ => .null

/-- A value in memory, reached through a pointer: its type and, for a struct,
the contents of its fields by position. -/
structure Object where
  /-- The dynamic type. -/
  Typ : RType
  /-- Field contents, by position. -/
  Fields : List Value
  deriving DecidableEq

/-- Go `reflect.New(modelType).Interface()`: a pointer to a zero value. -/
def New (modelType : RType) : Object :=
  { Typ := modelType, Fields := modelType.Fields.map (fun f => zeroValue f.Typ) }

/-- Go `maps.Field(index)`: the position of the field, or the panic of
`reflect` when the value has no such field. -/
def Object.Field (maps : Object) (index : Int) : Except Panic Nat :=
  if 0 ≤ index ∧ index < (maps.Typ.NumField : Int) then .ok index.toNat
  else .error (.fieldIndexOutOfRange index maps.Typ.NumField)

/-- The content of a string field, as read by `model.ClientId`. -/
def Object.stringField (o : Object) (pos : Nat) : String :=
  match o.Fields[pos]? with
  | some (.str s) => s
  | _ => ""

/-- A scan target: one element of the argument list of `rows.Scan`. -/
inductive Target where
  /-- The address of field `index` of the destination, `maps.Field(index).Addr()`. -/
  | field (index : Nat)
  /-- The address of a throwaway variable, `&ignore`. -/
  | ignore
  deriving DecidableEq

/-- Go `v.Addr().Interface()` for the field `v` at position `pos` of `maps`:
the scan target, or the panic of `reflect` when the field is unexported. The
value `maps` is reached through a pointer, so the field is addressable. -/
def Object.FieldAddr (maps : Object) (pos : Nat) : Except Panic Target :=
  match maps.Typ.Fields[pos]? with
  | none => .error (.fieldIndexOutOfRange pos maps.Typ.NumField)
  | some f => if f.IsExported then .ok (Target.field pos) else .error (.unexportedField pos)

/-- The loop of `StructScanByIndex` over `columns`; `r` is the result built
so far. -/
def StructScanByIndex.loop (lower : CaseTable) (maps : Object) (fieldsIndex : FieldsIndex) :
    List String → List Target → Except Panic (List Target)
  | [], r => .ok r
  | columnsName :: rest, r =>
    let columnsName := ToLower lower columnsName
    match fieldsIndex.get columnsName with
    | some index =>
      match maps.Field index with
      | .error p => .error p
      | .ok pos =>
        match maps.FieldAddr pos with
        | .error p => .error p
        | .ok target => StructScanByIndex.loop lower maps fieldsIndex rest (r ++ [target])
    | none => StructScanByIndex.loop lower maps fieldsIndex rest (r ++ [Target.ignore])

/-- Go `StructScanByIndex(s, fieldsIndex, columns)`; `s` is `none` for a nil
interface and otherwise a pointer to the destination. -/
def StructScanByIndex (lower : CaseTable) (s : Option Object) (fieldsIndex : FieldsIndex)
    (columns : List String) : Except Panic (List Target) :=
  match s with
  | some maps => StructScanByIndex.loop lower maps fieldsIndex columns []
  | none => .ok []

/-! ## The row cursor (`*sql.Rows`) -/

/-- One result row: the values of its columns, in column order. -/
abbrev Row := List Value

/-- How `database/sql` converts a database value for a destination of a given
kind (`convertAssign`); `none` when the conversion is not supported. -/
abbrev Conv := Kind → Value → Option Value

/-- State of a row cursor. -/
structure Rows where
  /-- What the driver answers to the column listing. -/
  columns : Except Error (List String)
  /-- Rows not yet reached by `Next`. -/
  pending : List Row
  /-- The row made current by the last `Next`, if any. -/
  current : Option Row
  /-- Whether the cursor has been closed. -/
  closed : Bool
  deriving DecidableEq

/-- Go `rows.Columns()`. -/
def Rows.Columns (rs : Rows) : Except Error (List String) :=
  if rs.closed then .error .rowsClosed else rs.columns

/-- Go `rows.Next()`: the answer and the cursor afterwards. A cursor that is
exhausted closes itself. -/
def Rows.Next (rs : Rows) : Bool × Rows :=
  if rs.closed then (false, rs)
  else
    match rs.pending with
    | [] => (false, { rs with current := none, closed := true })
    | row :: rest => (true, { rs with pending := rest, current := some row })

/-- Go `rows.Close()`. -/
def Rows.Close (rs : Rows) : Rows :=
  { rs with current := none, closed := true }

/-- Assignment of one database value to one scan target. -/
def assignTarget (conv : Conv) (obj : Object) (target : Target) (src : Value) : Option Object :=
  match target with
  | .ignore => some obj
  | .field index =>
    match obj.Typ.Fields[index]? with
    | none => none
    | some f =>
      match conv f.Typ src with
      | none => none
      | some v => some { obj with Fields := obj.Fields.set index v }

/-- The loop of `rows.Scan` over the columns, started at column `i`: values are
assigned from left to right and the first failure ends the scan, leaving the
earlier assignments in place. -/
def assignAll (conv : Conv) : Nat → List Target → Row → Object → Object × Option Error
  | i, d :: dest, sv :: lastcols, obj =>
    match assignTarget conv obj d sv with
    | none => (obj, some (.scanColumn i))
    | some obj1 => assignAll conv (i + 1) dest lastcols obj1
  | _, _, _, obj => (obj, none)

/-- The body of `rows.Scan` once the cursor stands on the row `lastcols`: the
number of targets is checked, then the values are assigned. -/
def scanValues (conv : Conv) (dest : List Target) (lastcols : Row) (obj : Object) :
    Object × Option Error :=
  if dest.length ≠ lastcols.length then
    (obj, some (.scanArity lastcols.length dest.length))
  else assignAll conv 0 dest lastcols obj

/-- Go `rows.Scan(dest...)` with targets inside `obj`: the destination
afterwards and the error. -/
def Rows.Scan (rs : Rows) (conv : Conv) (dest : List Target) (obj : Object) :
    Object × Option Error :=
  if rs.closed then (obj, some .rowsClosed)
  else
    match rs.current with
    | none => (obj, some .scanWithoutNext)
    | some lastcols => scanValues conv dest lastcols obj

/-! ## Scanning -/

/-- A destination slice `*[]T`: the element type and the elements. -/
structure Results where
  /-- The element type `T`. -/
  Elem : RType
  /-- The elements of the slice. -/
  items : List Object
  deriving DecidableEq

/-- Go `appendToArray(arr, item)`. -/
def appendToArray (arr : Results) (item : Object) : Results :=
  { arr with items := arr.items ++ [item] }

/-- What a scanner leaves behind: the cursor, the destination and how the call
ended (a panic, or the returned error). -/
structure Scanned (α : Type) where
  /-- The cursor after the call. -/
  rows : Option Rows
  /-- The destination after the call. -/
  dest : α
  /-- The returned `error`, or the panic that ended the call. -/
  ret : Except Panic (Option Error)
  deriving DecidableEq

/-- The loop `for rows.Next() { ... }` of `Scans`; `err` is the named result.
The first argument bounds the number of iterations; `Scans` passes one more
than the number of pending rows, so the bound is never reached. -/
def Scans.loop (lower : CaseTable) (conv : Conv) (modelType : RType)
    (fieldsIndex : FieldsIndex) (columns : List String) :
    Nat → Rows → Results → Option Error → Scanned Results
  | 0, rows, results, err => { rows := some rows, dest := results, ret := .ok err }
  | budget + 1, rows, results, err =>
    match rows.Next with
    | (false, rows1) => { rows := some rows1, dest := results, ret := .ok err }
    | (true, rows1) =>
      let initModel := New modelType
      match StructScanByIndex lower (some initModel) fieldsIndex columns with
      | .error p => { rows := some rows1, dest := results, ret := .error p }
      | .ok targets =>
        match rows1.Scan conv targets initModel with
        | (initModel1, none) =>
          Scans.loop lower conv modelType fieldsIndex columns budget rows1
            (appendToArray results initModel1) none
        | (_, some e) =>
          Scans.loop lower conv modelType fieldsIndex columns budget rows1 results (some e)

/-- Go `Scans(rows, results, fieldsIndex)`. -/
def Scans (lower : CaseTable) (conv : Conv) (rows : Option Rows) (results : Results)
    (fieldsIndex : FieldsIndex) : Scanned Results :=
  match rows with
  | none => { rows := none, dest := results, ret := .error .nilDereference }
  | some rows =>
    match rows.Columns with
    | .error er0 => { rows := some rows, dest := results, ret := .ok (some er0) }
    | .ok columns =>
      let modelType := results.Elem
      Scans.loop lower conv modelType fieldsIndex columns (rows.pending.length + 1) rows results none

/-- Go `ScanRow(rows, result)`. -/
def ScanRow (lower : CaseTable) (conv : Conv) (rows : Option Rows) (result : Object) :
    Scanned Object :=
  match rows with
  | none => { rows := none, dest := result, ret := .error .nilDereference }
  | some rows =>
    match rows.Columns with
    | .error er0 => { rows := some rows, dest := result, ret := .ok (some er0) }
    | .ok columns =>
      let modelType := result.Typ
      match GetColumnIndexes modelType with
      | .error p => { rows := some rows, dest := result, ret := .error p }
      | .ok (_, some er0) => { rows := some rows, dest := result, ret := .ok (some er0) }
      | .ok (fieldsIndex, none) =>
        match rows.Next with
        | (false, rows1) => { rows := some rows1, dest := result, ret := .ok none }
        | (true, rows1) =>
          match StructScanByIndex lower (some result) fieldsIndex columns with
          | .error p => { rows := some rows1, dest := result, ret := .error p }
          | .ok targets =>
            match rows1.Scan conv targets result with
            | (result1, err) => { rows := some rows1, dest := result1, ret := .ok err }

/-! ## The repository -/

/-- Modelled from the spec: the constants `DriverPostgres`, `DriverMysql`,
`DriverMssql`, `DriverOracle` and `DriverNotSupport` are declared outside this
file; the spec describes them as the values of one enumeration. -/
inductive Driver where
  | DriverPostgres | DriverMysql | DriverMssql | DriverOracle | DriverNotSupport
  deriving DecidableEq

/-- A database handle `*sql.DB` that is not nil. -/
structure DB where
  /-- The result of `reflect.TypeOf(db.Driver()).String()`. -/
  driverType : String
  /-- The method `db.Query(query, arg)`: a cursor (nil on failure) and an error. -/
  Query : String → String → Option Rows × Option Error

/-- Go `GetDriver(db)`; `none` is the nil handle. -/
def GetDriver (db : Option DB) : Driver :=
  match db with
  | none => .DriverNotSupport
  | some db =>
    let driver := db.driverType
    if driver = "*pq.Driver" then .DriverPostgres
    else if driver = "*mysql.MySQLDriver" then .DriverMysql
    else if driver = "*mssql.Driver" then .DriverMssql
    else if driver = "*godror.drv" then .DriverOracle
    else .DriverNotSupport

/-- Modelled from the spec: the interface `OAuth2UserRepository` is declared
outside this file. Its one method, `GetRequestTokenOAuth(ctx, clientId,
clientSecret)`, answers with a token and an error. -/
abbrev OAuth2UserRepository := String → String → String × Option Error

/-- Modelled from the spec: the struct `Configuration` is declared outside this
file. The declaration is given by its fields and by the positions of the two
string fields that `GetConfiguration` reads. -/
structure ConfigurationDecl where
  /-- The declared fields with their tags. -/
  fields : List StructField
  /-- Position of the field `ClientId`. -/
  ClientId : Nat
  /-- Position of the field `ClientSecret`. -/
  ClientSecret : Nat

/-- What the file takes from its surroundings. -/
structure Env where
  /-- The case table of the `unicode` package. -/
  toLower : CaseTable
  /-- Conversion of database values by `database/sql`. -/
  convertAssign : Conv
  /-- The function `BuildParam(index, driver)`, declared outside this file. -/
  BuildParam : Nat → Driver → String
  /-- The declaration of `Configuration`. -/
  Configuration : ConfigurationDecl

/-- The struct `SqlConfigurationRepository`. -/
structure SqlConfigurationRepository where
  /-- The handle; `none` is nil. -/
  DB : Option DB
  TableName : String
  /-- The map from configuration id to token-exchange service. -/
  OAuth2UserRepositories : List (String × OAuth2UserRepository)
  Status : String
  Active : String
  Driver : Driver

/-- Go `NewSqlConfigurationRepository(db, tableName, services, status, active)`. -/
def NewSqlConfigurationRepository (db : Option DB) (tableName : String)
    (oAuth2PersonInfoServices : List (String × OAuth2UserRepository))
    (status : String) (active : String) : SqlConfigurationRepository :=
  let status := if status.length = 0 then "status" else status
  let active := if active.length = 0 then "A" else active
  { DB := db, TableName := tableName, OAuth2UserRepositories := oAuth2PersonInfoServices,
    Status := status, Active := active, Driver := GetDriver db }

/-- One invocation of `GetRequestTokenOAuth`: the id that selected the service
and the two arguments. -/
structure TokenCall where
  id : String
  clientId : String
  clientSecret : String
  deriving DecidableEq

/-- The results of `GetConfiguration`: `(*Configuration, string, error)`. -/
structure ConfigurationResult where
  /-- The returned pointer; `none` is nil. -/
  model : Option Object
  /-- The returned token. -/
  token : String
  /-- The returned error. -/
  err : Option Error
  deriving DecidableEq

/-- What a call of `GetConfiguration` leaves behind. -/
structure ConfigurationOutcome where
  /-- The results, or the panic that ended the call. -/
  ret : Except Panic ConfigurationResult
  /-- The invocations of `GetRequestTokenOAuth`, in order. -/
  calls : List TokenCall
  /-- The cursor obtained from the query, as the call leaves it. -/
  rows : Option Rows
  deriving DecidableEq

/-- The query text of `GetConfiguration`. -/
def GetConfiguration.query (env : Env) (s : SqlConfigurationRepository) : String :=
  let limitRowsQL := if GetDriver s.DB = Driver.DriverOracle then "and rownum = 1" else "limit 1"
  "select * from " ++ s.TableName ++ " where " ++ "id" ++ " = " ++
    env.BuildParam 0 (GetDriver s.DB) ++ " " ++ limitRowsQL

/-- Go `(s *SqlConfigurationRepository).GetConfiguration(ctx, id)`. -/
def GetConfiguration (env : Env) (s : SqlConfigurationRepository) (id : String) :
    ConfigurationOutcome :=
  let model := New (RType.struct env.Configuration.fields)
  let query := GetConfiguration.query env s
  match s.DB with
  | none => { ret := .error .nilDereference, calls := [], rows := none }
  | some db =>
    let (rows, _) := db.Query query id
    let scanned := ScanRow env.toLower env.convertAssign rows model
    match scanned.ret with
    | .error p => { ret := .error p, calls := [], rows := scanned.rows }
    | .ok err2 =>
      if err2 = some Error.ErrNoRows then
        { ret := .ok { model := none, token := "", err := err2 }, calls := [], rows := scanned.rows }
      else
        let model := scanned.dest
        let clientId := model.stringField env.Configuration.ClientId
        let clientSecret := model.stringField env.Configuration.ClientSecret
        match List.lookup id s.OAuth2UserRepositories with
        | none => { ret := .error .nilDereference, calls := [], rows := scanned.rows }
        | some repo =>
          let (token, err) := repo clientId clientSecret
          { ret := .ok { model := some model, token := token, err := err },
            calls := [{ id := id, clientId := clientId, clientSecret := clientSecret }],
            rows := scanned.rows }

/-- The results of `GetConfigurations`: `(*[]Configuration, error)`. -/
structure ConfigurationsResult where
  /-- The returned pointer to the slice; `none` is nil. -/
  models : Option (List Object)
  /-- The returned error. -/
  err : Option Error
  deriving DecidableEq

/-- What a call of `GetConfigurations` leaves behind. -/
structure ConfigurationsOutcome where
  /-- The results, or the panic that ended the call. -/
  ret : Except Panic ConfigurationsResult
  /-- The cursor obtained from the query, as the call leaves it. -/
  rows : Option Rows
  deriving DecidableEq

/-- The query text of `GetConfigurations`. -/
def GetConfigurations.query (env : Env) (s : SqlConfigurationRepository) : String :=
  "select * from " ++ s.TableName ++ " where " ++ s.Status ++ " = " ++
    env.BuildParam 0 s.Driver ++ " "

/-- Go `(s *SqlConfigurationRepository).GetConfigurations(ctx)`. The deferred
`rows.Close()` runs on every exit after the `defer` statement, a panic
included. -/
def GetConfigurations (env : Env) (s : SqlConfigurationRepository) : ConfigurationsOutcome :=
  let query := GetConfigurations.query env s
  match s.DB with
  | none => { ret := .error .nilDereference, rows := none }
  | some db =>
    match db.Query query s.Active with
    | (rows, some err) => { ret := .ok { models := none, err := some err }, rows := rows }
    | (rows, none) =>
      let models : Results := { Elem := RType.struct env.Configuration.fields, items := [] }
      let modelType := RType.struct env.Configuration.fields
      match GetColumnIndexes modelType with
      | .error p => { ret := .error p, rows := rows }
      | .ok (_, some er1) => { ret := .ok { models := none, err := some er1 }, rows := rows }
      | .ok (fieldsIndex, none) =>
        let scanned := Scans env.toLower env.convertAssign rows models fieldsIndex
        let closed := scanned.rows.map Rows.Close
        match scanned.ret with
        | .error p => { ret := .error p, rows := closed }
        | .ok (some err1) => { ret := .ok { models := none, err := some err1 }, rows := closed }
        | .ok none => { ret := .ok { models := some scanned.dest.items, err := none }, rows := closed }

/-! ## Concrete inputs -/

/-- The part of the case table that the concrete inputs use: the capital
letters of the Latin-1 Supplement, U+00C0 to U+00DE without the sign U+00D7,
have their small letters 32 positions higher. The concrete inputs hold no
capital letter beyond these and ASCII; other code points are kept. -/
def sampleLower : CaseTable := fun c =>
  if 192 ≤ c.toNat ∧ c.toNat ≤ 222 ∧ c.toNat ≠ 215 then Char.ofNat (c.toNat + 32) else c

/-- A struct whose only field is unexported and bound to the column `id`. -/
def hiddenType : RType :=
  .struct [{ Name := "id", PkgPath := "main", Typ := .String, gorm := "column:id" }]

/-- A struct with two string fields bound to the columns `id` and `école`. -/
def schoolType : RType :=
  .struct [
    { Name := "Id", Typ := .String, gorm := "column:id" },
    { Name := "Ecole", Typ := .String, gorm := "column:école" }]

/-- A conversion table for the concrete inputs: a value converts to a field of
its own kind, and NULL converts to none of these kinds. -/
def sampleConv : Conv
  | .String, .str s => some (.str s)
  | .Int, .int n => some (.int n)
  | .Int64, .int n => some (.int n)
  | .Bool, .bool b => some (.bool b)
  | _, _ => none

/-- A struct with fields tagged `column:foo` and `column:BAR` and one field
without a tag. -/
def taggedType : RType :=
  .struct [
    { Name := "Foo", Typ := .String, gorm := "column:foo" },
    { Name := "Bar", Typ := .String, gorm := "column:BAR" },
    { Name := "Baz", Typ := .String, gorm := "" }]

/-- A struct with one string field bound to the column `name`. -/
def nameType : RType :=
  .struct [{ Name := "Name", Typ := .String, gorm := "column:name" }]

/-- A struct with two string fields, the first bound to the column `id`. -/
def pairType : RType :=
  .struct [
    { Name := "Id", Typ := .String, gorm := "column:id" },
    { Name := "Note", Typ := .String, gorm := "" }]

/-- A struct whose only field has the tag `column`, a key without a value. -/
def bareKeyType : RType :=
  .struct [{ Name := "Id", Typ := .String, gorm := "column" }]

/-- Modelled from the spec: a declaration of `Configuration` with the four
string attributes that the spec lists (identifier, client id, client secret,
status), each bound to a column. -/
def sampleConfiguration : ConfigurationDecl :=
  { fields := [
      { Name := "Id", Typ := .String, gorm := "column:id" },
      { Name := "ClientId", Typ := .String, gorm := "column:clientid" },
      { Name := "ClientSecret", Typ := .String, gorm := "column:clientsecret" },
      { Name := "Status", Typ := .String, gorm := "column:status" }],
    ClientId := 1,
    ClientSecret := 2 }

/-- The surroundings used for the concrete inputs. -/
def sampleEnv : Env :=
  { toLower := sampleLower, convertAssign := sampleConv, BuildParam := fun _ _ => "?",
    Configuration := sampleConfiguration }

/-- An open cursor with the given columns and rows, before the first `Next`. -/
def freshCursor (columns : List String) (pending : List Row) : Rows :=
  { columns := .ok columns, pending := pending, current := none, closed := false }

/-- A handle whose every query answers with the cursor `rows`. -/
def sampleDB (rows : Rows) : DB :=
  { driverType := "*pq.Driver", Query := fun _ _ => (some rows, none) }

/-- A token-exchange service that always succeeds. -/
def sampleExchange : OAuth2UserRepository :=
  fun clientId _ => ("token:" ++ clientId, none)

/-- A repository over a table in which no row matches: every query answers
with an empty cursor. The service for the id `abc` is registered. -/
def emptyTableRepository : SqlConfigurationRepository :=
  NewSqlConfigurationRepository
    (some (sampleDB (freshCursor ["id", "clientid", "clientsecret", "status"] [])))
    "configuration" [("abc", sampleExchange)] "" ""

/-- Five rows for the column `name`; the third holds NULL. -/
def fiveRows : List Row :=
  [[.str "r1"], [.str "r2"], [.null], [.str "r4"], [.str "r5"]]

/-- An element of `nameType` holding `s`. -/
def nameElem (s : String) : Object :=
  { Typ := nameType, Fields := [.str s] }

/-- A token-exchange service that always fails. -/
def failingExchange : OAuth2UserRepository :=
  fun _ _ => ("", some (.driver "exchange failed"))

/-- The columns of the `configuration` table in the concrete inputs. -/
def configurationColumns : List String :=
  ["id", "clientid", "clientsecret", "status"]

/-- A repository whose every query answers with an open cursor over `rows`;
the service `service` is registered for the id `abc`. -/
def repositoryOver (rows : List Row) (service : OAuth2UserRepository) :
    SqlConfigurationRepository :=
  NewSqlConfigurationRepository (some (sampleDB (freshCursor configurationColumns rows)))
    "configuration" [("abc", service)] "" ""

/-- A row of the `configuration` table that scans into `Configuration`. -/
def goodRow : Row :=
  [.str "abc", .str "client-1", .str "secret-1", .str "A"]

/-- A row of the `configuration` table whose client id is NULL, which does not
scan into the string field `ClientId`. -/
def nullClientRow : Row :=
  [.str "abc", .null, .str "secret-1", .str "A"]

/-- A cursor whose column listing fails. -/
def brokenCursor : Rows :=
  { columns := .error (.driver "no columns"), pending := [[.str "r1"]], current := none,
    closed := false }

/-! ## Auxiliary notions used in the statements -/

/-- The scan target that `StructScanByIndex` chooses for one returned column. -/
def targetOf (lower : CaseTable) (fieldsIndex : FieldsIndex) (columnsName : String) : Target :=
  match fieldsIndex.get (ToLower lower columnsName) with
  | some index => Target.field index.toNat
  | none => Target.ignore

/-- Every value that the binding map holds is the position of a field of a
struct with `numField` fields. -/
def FieldsIndex.Valid (m : FieldsIndex) (numField : Nat) : Prop :=
  ∀ k v, m.get k = some v → 0 ≤ v ∧ v < (numField : Int)

/-- Every field that the binding map gives for one of the returned columns is
an exported field of the type `t`. -/
def FieldsIndex.Exported (lower : CaseTable) (m : FieldsIndex) (t : RType)
    (columns : List String) : Prop :=
  ∀ c ∈ columns, ∀ index, m.get (ToLower lower c) = some index →
    ∀ f, t.Fields[index.toNat]? = some f → f.IsExported = true

/-- The element that one iteration of `Scans` appends for `row`: the fresh
element after the scan when the scan targets are built and the scan succeeds,
nothing otherwise. -/
def scannedElem (lower : CaseTable) (conv : Conv) (modelType : RType)
    (fieldsIndex : FieldsIndex) (columns : List String) (row : Row) : Option Object :=
  match StructScanByIndex lower (some (New modelType)) fieldsIndex columns with
  | .error _ => none
  | .ok targets =>
    match scanValues conv targets row (New modelType) with
    | (elem, none) => some elem
    | (_, some _) => none

/-- The error of the scan of `row` into a fresh element of type `modelType`. -/
def scanError (lower : CaseTable) (conv : Conv) (modelType : RType)
    (fieldsIndex : FieldsIndex) (columns : List String) (row : Row) : Option Error :=
  match StructScanByIndex lower (some (New modelType)) fieldsIndex columns with
  | .error _ => none
  | .ok targets => (scanValues conv targets row (New modelType)).2

/-- The cursor after it has been read to the end. -/
def Rows.exhausted (rs : Rows) : Rows :=
  { rs with pending := [], current := none, closed := true }

/-! ## Lemmas -/

theorem FieldsIndex.get_mem (m : FieldsIndex) (k : String) (v : Int)
    (h : m.get k = some v) : (k, v) ∈ m := by
  induction m with
  | nil => simp [FieldsIndex.get] at h
  | cons p rest ih =>
    obtain ⟨a, b⟩ := p
    unfold FieldsIndex.get at h ih
    rw [List.lookup_cons] at h
    by_cases hk : k = a
    · subst hk
      simp at h
      subst h
      exact List.mem_cons_self _ _
    · have hb : (k == a) = false := by simpa using hk
      rw [hb] at h
      exact List.mem_cons_of_mem _ (ih h)

theorem FieldsIndex.valid_of_entries (m : FieldsIndex) (numField : Nat)
    (h : ∀ p ∈ m, 0 ≤ p.2 ∧ p.2 < (numField : Int)) : m.Valid numField :=
  fun k v hget => h (k, v) (FieldsIndex.get_mem m k v hget)

theorem FieldsIndex.exported_of_fields (lower : CaseTable) (m : FieldsIndex) (t : RType)
    (columns : List String) (h : ∀ f ∈ t.Fields, f.IsExported = true) :
    m.Exported lower t columns :=
  fun _ _ _ _ f hf => h f (List.getElem?_mem hf)

theorem Object.Field_valid (maps : Object) (index : Int)
    (h : 0 ≤ index ∧ index < (maps.Typ.NumField : Int)) :
    maps.Field index = .ok index.toNat := by
  simp [Object.Field, h]

theorem Object.FieldAddr_exported (maps : Object) (pos : Nat) (f : StructField)
    (hf : maps.Typ.Fields[pos]? = some f) (hexp : f.IsExported = true) :
    maps.FieldAddr pos = .ok (Target.field pos) := by
  simp [Object.FieldAddr, hf, hexp]

theorem Object.FieldAddr_in_range (maps : Object) (pos : Nat) (hpos : pos < maps.Typ.NumField) :
    maps.FieldAddr pos = .ok (Target.field pos) ∨ maps.FieldAddr pos = .error (.unexportedField pos) := by
  have hlt : pos < maps.Typ.Fields.length := hpos
  unfold Object.FieldAddr
  rw [List.getElem?_eq_getElem hlt]
  simp only
  split
  · exact Or.inl rfl
  · exact Or.inr rfl

theorem StructScanByIndex_loop_targets (lower : CaseTable) (maps : Object)
    (fieldsIndex : FieldsIndex) (hvalid : fieldsIndex.Valid maps.Typ.NumField)
    (columns : List String) (hexp : fieldsIndex.Exported lower maps.Typ columns)
    (r : List Target) :
    StructScanByIndex.loop lower maps fieldsIndex columns r
      = .ok (r ++ columns.map (targetOf lower fieldsIndex)) := by
  induction columns generalizing r with
  | nil => simp [StructScanByIndex.loop]
  | cons c rest ih =>
    have hrest : fieldsIndex.Exported lower maps.Typ rest :=
      fun c1 hc1 => hexp c1 (List.mem_cons_of_mem _ hc1)
    unfold StructScanByIndex.loop
    cases hget : fieldsIndex.get (ToLower lower c) with
    | none =>
      simp only [hget]
      rw [ih hrest]
      simp [targetOf, hget]
    | some index =>
      have hv := hvalid _ _ hget
      have hlt : index.toNat < maps.Typ.Fields.length := by
        have h2 := hv.2
        have h1 := hv.1
        unfold RType.NumField at h2
        omega
      have hf : maps.Typ.Fields[index.toNat]? = some (maps.Typ.Fields[index.toNat]) :=
        List.getElem?_eq_getElem hlt
      have hfe := hexp c (List.mem_cons_self _ _) index hget _ hf
      simp only [hget, Object.Field_valid maps index hv,
        Object.FieldAddr_exported maps index.toNat _ hf hfe]
      rw [ih hrest]
      simp [targetOf, hget]

theorem StructScanByIndex_eq (lower : CaseTable) (maps : Object) (fieldsIndex : FieldsIndex)
    (hvalid : fieldsIndex.Valid maps.Typ.NumField) (columns : List String)
    (hexp : fieldsIndex.Exported lower maps.Typ columns) :
    StructScanByIndex lower (some maps) fieldsIndex columns
      = .ok (columns.map (targetOf lower fieldsIndex)) := by
  simp [StructScanByIndex, StructScanByIndex_loop_targets lower maps fieldsIndex hvalid columns hexp]

theorem StructScanByIndex_loop_in_range (lower : CaseTable) (maps : Object)
    (fieldsIndex : FieldsIndex) (hvalid : fieldsIndex.Valid maps.Typ.NumField)
    (columns : List String) (r : List Target) (index : Int) (numField : Nat) :
    StructScanByIndex.loop lower maps fieldsIndex columns r
      ≠ .error (.fieldIndexOutOfRange index numField) := by
  induction columns generalizing r with
  | nil => simp [StructScanByIndex.loop]
  | cons c rest ih =>
    unfold StructScanByIndex.loop
    cases hget : fieldsIndex.get (ToLower lower c) with
    | none =>
      simp only [hget]
      exact ih _
    | some i =>
      have hv := hvalid _ _ hget
      have hlt : i.toNat < maps.Typ.NumField := by
        have h2 := hv.2
        have h1 := hv.1
        omega
      simp only [hget, Object.Field_valid maps i hv]
      rcases Object.FieldAddr_in_range maps i.toNat hlt with hok | hpanic
      · simp only [hok]
        exact ih _
      · simp [hpanic]

theorem StructScanByIndex_in_range (lower : CaseTable) (maps : Object)
    (fieldsIndex : FieldsIndex) (hvalid : fieldsIndex.Valid maps.Typ.NumField)
    (columns : List String) (index : Int) (numField : Nat) :
    StructScanByIndex lower (some maps) fieldsIndex columns
      ≠ .error (.fieldIndexOutOfRange index numField) := by
  simp only [StructScanByIndex]
  exact StructScanByIndex_loop_in_range lower maps fieldsIndex hvalid columns [] index numField

theorem assignTarget_frame (conv : Conv) (obj obj1 : Object) (target : Target) (src : Value)
    (j : Nat) (hj : target ≠ Target.field j) (h : assignTarget conv obj target src = some obj1) :
    obj1.Fields[j]? = obj.Fields[j]? ∧ obj1.Typ = obj.Typ := by
  cases target with
  | ignore =>
    simp [assignTarget] at h
    subst h
    exact ⟨rfl, rfl⟩
  | field index =>
    have hne : index ≠ j := fun e => hj (by rw [e])
    unfold assignTarget at h
    simp only at h
    split at h
    · exact absurd h (by simp)
    · split at h
      · exact absurd h (by simp)
      · simp at h
        subst h
        exact ⟨by simp [List.getElem?_set_ne hne], rfl⟩

theorem assignAll_frame (conv : Conv) (j : Nat) (dest : List Target) :
    ∀ (i : Nat) (row : Row) (obj : Object), Target.field j ∉ dest →
      (assignAll conv i dest row obj).1.Fields[j]? = obj.Fields[j]? := by
  induction dest with
  | nil => intro i row obj _; simp [assignAll]
  | cons d rest ih =>
    intro i row obj hnot
    cases row with
    | nil => simp [assignAll]
    | cons sv lastcols =>
      have hd : d ≠ Target.field j := fun e => hnot (by simp [e])
      have hrest : Target.field j ∉ rest := fun e => hnot (List.mem_cons_of_mem _ e)
      unfold assignAll
      cases hass : assignTarget conv obj d sv with
      | none => simp
      | some obj1 =>
        simp only
        rw [ih (i + 1) lastcols obj1 hrest]
        exact (assignTarget_frame conv obj obj1 d sv j hd hass).1

theorem Rows.Scan_frame (rs : Rows) (conv : Conv) (dest : List Target) (obj : Object) (j : Nat)
    (hnot : Target.field j ∉ dest) :
    (rs.Scan conv dest obj).1.Fields[j]? = obj.Fields[j]? := by
  unfold Rows.Scan
  split
  · rfl
  · split
    · rfl
    · unfold scanValues
      split
      · rfl
      · exact assignAll_frame conv j dest 0 _ obj hnot

theorem Rows.Next_cons (rs : Rows) (row : Row) (rest : List Row)
    (hopen : rs.closed = false) (hp : rs.pending = row :: rest) :
    rs.Next = (true, { rs with pending := rest, current := some row }) := by
  simp [Rows.Next, hopen, hp]

theorem Rows.Next_nil (rs : Rows) (hopen : rs.closed = false) (hp : rs.pending = []) :
    rs.Next = (false, rs.exhausted) := by
  simp [Rows.Next, hopen, hp, Rows.exhausted]

theorem Scans_loop_closed_form (lower : CaseTable) (conv : Conv) (modelType : RType) (fieldsIndex : FieldsIndex)
    (columns : List String) (targets : List Target)
    (htargets : StructScanByIndex lower (some (New modelType)) fieldsIndex columns = .ok targets) :
    ∀ (pending : List Row) (budget : Nat) (rows : Rows) (results : Results) (err : Option Error),
      rows.closed = false → rows.pending = pending → pending.length < budget →
      Scans.loop lower conv modelType fieldsIndex columns budget rows results err =
        { rows := some rows.exhausted,
          dest := { results with
            items := results.items ++
              pending.filterMap (scannedElem lower conv modelType fieldsIndex columns) },
          ret := .ok (pending.foldl
            (fun _ row => scanError lower conv modelType fieldsIndex columns row) err) } := by
  intro pending
  induction pending with
  | nil =>
    intro budget rows results err hopen hp hlt
    cases budget with
    | zero => exact absurd hlt (Nat.lt_irrefl _)
    | succ b =>
      unfold Scans.loop
      rw [Rows.Next_nil rows hopen hp]
      simp
  | cons row rest ih =>
    intro budget rows results err hopen hp hlt
    cases budget with
    | zero => exact absurd hlt (Nat.not_lt_zero _)
    | succ b =>
      have hb : rest.length < b := by simpa using hlt
      unfold Scans.loop
      rw [Rows.Next_cons rows row rest hopen hp]
      simp only [htargets]
      have hscan : ({ rows with pending := rest, current := some row } : Rows).Scan conv targets
          (New modelType) = scanValues conv targets row (New modelType) := by
        simp [Rows.Scan, hopen]
      rw [hscan]
      have hex : ({ rows with pending := rest, current := some row } : Rows).exhausted
          = rows.exhausted := by
        simp [Rows.exhausted]
      cases hres : scanValues conv targets row (New modelType) with
      | mk elem e =>
        cases e with
        | none =>
          simp only
          rw [ih b { rows with pending := rest, current := some row } _ _ hopen rfl hb, hex]
          simp [scannedElem, scanError, htargets, hres, appendToArray]
        | some e1 =>
          simp only
          rw [ih b { rows with pending := rest, current := some row } _ _ hopen rfl hb, hex]
          simp [scannedElem, scanError, htargets, hres]

theorem Scans_loop_panic (lower : CaseTable) (conv : Conv) (modelType : RType) (fieldsIndex : FieldsIndex)
    (columns : List String) (p : Panic)
    (htargets : StructScanByIndex lower (some (New modelType)) fieldsIndex columns = .error p)
    (budget : Nat) (rows : Rows) (results : Results) (err : Option Error)
    (row : Row) (rest : List Row) (hopen : rows.closed = false)
    (hp : rows.pending = row :: rest) :
    Scans.loop lower conv modelType fieldsIndex columns (budget + 1) rows results err =
      { rows := some { rows with pending := rest, current := some row },
        dest := results,
        ret := .error p } := by
  unfold Scans.loop
  rw [Rows.Next_cons rows row rest hopen hp]
  simp only [htargets]

theorem FieldsIndex.valid_nil (numField : Nat) : FieldsIndex.Valid [] numField := by
  intro k v h
  simp [FieldsIndex.get] at h

theorem FieldsIndex.valid_set (m : FieldsIndex) (numField : Nat) (column : String) (i : Nat)
    (hm : m.Valid numField) (hi : i < numField) : (m.set column (i : Int)).Valid numField := by
  intro k v h
  unfold FieldsIndex.set FieldsIndex.get at h
  rw [List.lookup_cons] at h
  cases hk : (k == column) with
  | true =>
    rw [hk] at h
    simp only [Option.some.injEq] at h
    subst h
    exact ⟨Int.ofNat_nonneg i, Int.ofNat_lt.mpr hi⟩
  | false =>
    rw [hk] at h
    exact hm k v h

theorem GetColumnIndexes_loop_valid (numField : Nat) (fields : List StructField) :
    ∀ (i : Nat) (mapp m : FieldsIndex), GetColumnIndexes.loop i fields mapp = .ok m →
      mapp.Valid numField → i + fields.length ≤ numField → m.Valid numField := by
  induction fields with
  | nil =>
    intro i mapp m h hvalid _
    simp only [GetColumnIndexes.loop, Except.ok.injEq] at h
    subst h
    exact hvalid
  | cons field rest ih =>
    intro i mapp m h hvalid hle
    unfold GetColumnIndexes.loop at h
    simp only at h
    have hi : i < numField := by
      simp only [List.length_cons] at hle
      omega
    have hrest : i + 1 + rest.length ≤ numField := by
      simp only [List.length_cons] at hle
      omega
    cases hfind : FindTag field.gorm "column" with
    | error p => simp [hfind] at h
    | ok r =>
      obtain ⟨column, ok⟩ := r
      simp only [hfind] at h
      refine ih (i + 1) _ m h ?_ hrest
      cases ok with
      | false => simpa using hvalid
      | true => simpa using FieldsIndex.valid_set mapp numField column i hvalid hi

theorem GetColumnIndexes_valid (modelType : RType) (m : FieldsIndex) (e : Option Error)
    (h : GetColumnIndexes modelType = .ok (m, e)) : m.Valid modelType.NumField := by
  unfold GetColumnIndexes at h
  simp only at h
  split at h
  · simp only [Except.ok.injEq, Prod.mk.injEq] at h
    rw [← h.1]
    exact FieldsIndex.valid_nil _
  · cases hloop : GetColumnIndexes.loop 0 modelType.Fields [] with
    | error p => simp [hloop] at h
    | ok m1 =>
      simp only [hloop, Except.ok.injEq, Prod.mk.injEq] at h
      rw [← h.1]
      exact GetColumnIndexes_loop_valid modelType.NumField modelType.Fields 0 [] m1 hloop
        (FieldsIndex.valid_nil _) (by simp [RType.NumField])

theorem ScanRow_first_row (lower : CaseTable) (conv : Conv) (rows : Rows)
    (columns : List String) (result : Object) (fieldsIndex : FieldsIndex)
    (targets : List Target) (row : Row) (rest : List Row)
    (hcols : rows.Columns = .ok columns)
    (hidx : GetColumnIndexes result.Typ = .ok (fieldsIndex, none))
    (htargets : StructScanByIndex lower (some result) fieldsIndex columns = .ok targets)
    (hp : rows.pending = row :: rest) :
    ScanRow lower conv (some rows) result
      = { rows := some { rows with pending := rest, current := some row },
          dest := (scanValues conv targets row result).1,
          ret := .ok (scanValues conv targets row result).2 } := by
  have hopen : rows.closed = false := by
    cases hc : rows.closed with
    | false => rfl
    | true => simp [Rows.Columns, hc] at hcols
  have hscan : ({ rows with pending := rest, current := some row } : Rows).Scan conv
      targets result = scanValues conv targets row result := by
    simp [Rows.Scan, hopen]
  simp only [ScanRow, hcols, hidx, Rows.Next_cons rows row rest hopen hp, htargets, hscan]

theorem Scans_loop_keeps_cursor (lower : CaseTable) (conv : Conv) (modelType : RType) (fieldsIndex : FieldsIndex)
    (columns : List String) (budget : Nat) :
    ∀ (rows : Rows) (results : Results) (err : Option Error),
      ∃ rs, (Scans.loop lower conv modelType fieldsIndex columns budget rows results err).rows
        = some rs := by
  induction budget with
  | zero =>
    intro rows results err
    exact ⟨rows, rfl⟩
  | succ b ih =>
    intro rows results err
    unfold Scans.loop
    cases hnext : rows.Next with
    | mk has rows1 =>
      cases has with
      | false => exact ⟨rows1, rfl⟩
      | true =>
        simp only
        cases htargets : StructScanByIndex lower (some (New modelType)) fieldsIndex columns with
        | error p => exact ⟨rows1, rfl⟩
        | ok targets =>
          simp only
          cases hscan : rows1.Scan conv targets (New modelType) with
          | mk elem e =>
            cases e with
            | none => exact ih _ _ _
            | some e1 => exact ih _ _ _

theorem Scans_keeps_cursor (lower : CaseTable) (conv : Conv) (rows : Rows) (results : Results)
    (fieldsIndex : FieldsIndex) :
    ∃ rs, (Scans lower conv (some rows) results fieldsIndex).rows = some rs := by
  unfold Scans
  simp only
  cases hcols : rows.Columns with
  | error e => exact ⟨rows, rfl⟩
  | ok columns => exact Scans_loop_keeps_cursor lower conv _ fieldsIndex columns _ rows results none

theorem GetColumnIndexes_struct_no_error (fields : List StructField) (m : FieldsIndex)
    (e : Error) : GetColumnIndexes (.struct fields) ≠ .ok (m, some e) := by
  intro h
  unfold GetColumnIndexes at h
  simp only [RType.Kind, ne_eq, not_true_eq_false, ↓reduceIte] at h
  cases hloop : GetColumnIndexes.loop 0 (RType.struct fields).Fields [] with
  | error p => simp [hloop] at h
  | ok m1 => simp [hloop] at h

theorem containsChars_of_within (sub : List Char) :
    ∀ s : List Char, sub <:+: s → containsChars s sub = true := by
  intro s
  induction s with
  | nil =>
    intro h
    have hsub : sub = [] := List.infix_nil.mp h
    subst hsub
    rfl
  | cons c t ih =>
    intro h
    unfold containsChars
    rcases List.infix_cons_iff.mp h with hpre | hin
    · simp [List.isPrefixOf_iff_prefix.mpr hpre]
    · simp [ih hin]

theorem splitChars_shape (sep : Char) :
    ∀ s : List Char, ∃ q qs, splitChars sep s = q :: qs ∧ q <+: s ∧ ∀ p ∈ qs, p <:+: s := by
  intro s
  induction s with
  | nil => exact ⟨[], [], rfl, List.prefix_refl _, by simp⟩
  | cons c cs ih =>
    obtain ⟨q, qs, hq, hpre, hin⟩ := ih
    unfold splitChars
    by_cases hc : c = sep
    · refine ⟨[], q :: qs, by simp [hc, hq], List.nil_prefix, ?_⟩
      intro p hp
      rcases List.mem_cons.mp hp with hpq | hpqs
      · subst hpq
        exact (List.IsPrefix.isInfix hpre).trans (List.infix_cons (List.infix_refl _))
      · exact (hin p hpqs).trans (List.infix_cons (List.infix_refl _))
    · refine ⟨c :: q, qs, by simp [hc, hq], (List.prefix_cons_inj c).mpr hpre, ?_⟩
      intro p hp
      exact (hin p hp).trans (List.infix_cons (List.infix_refl _))

theorem splitChars_piece_within (sep : Char) (s p : List Char) (hp : p ∈ splitChars sep s) :
    p <:+: s := by
  obtain ⟨q, qs, hq, hpre, hin⟩ := splitChars_shape sep s
  rw [hq] at hp
  rcases List.mem_cons.mp hp with hpq | hpqs
  · subst hpq
    exact List.IsPrefix.isInfix hpre
  · exact hin p hpqs

theorem Split_part_within (s part : String) (sep : Char) (hp : part ∈ Split s sep) :
    part.data <:+: s.data := by
  unfold Split at hp
  obtain ⟨p, hmem, hpart⟩ := List.mem_map.mp hp
  subst hpart
  exact splitChars_piece_within sep s.data p hmem

theorem FindTag_parts_none (key : String) (len : Nat) :
    ∀ parts : List String, key ∉ parts → FindTag.parts key len parts = none := by
  intro parts
  induction parts with
  | nil => intro _; rfl
  | cons part rest ih =>
    intro h
    have hne : part ≠ key := fun e => h (by simp [e])
    have hrest : key ∉ rest := fun e => h (List.mem_cons_of_mem _ e)
    unfold FindTag.parts
    simp [hne, ih hrest]

theorem FindTag_segments_none (key : String) :
    ∀ segs : List String, (∀ seg ∈ segs, key ∉ Split seg ':') →
      FindTag.segments key segs = .ok ("", false) := by
  intro segs
  induction segs with
  | nil => intro _; rfl
  | cons seg rest ih =>
    intro h
    unfold FindTag.segments
    simp only
    rw [FindTag_parts_none key _ _ (h seg (List.mem_cons_self _ _))]
    exact ih (fun seg1 h1 => h seg1 (List.mem_cons_of_mem _ h1))

theorem Contains_of_part (tag key seg : String) (hseg : seg ∈ Split tag ';')
    (hkey : key ∈ Split seg ':') : Contains tag key = true := by
  unfold Contains
  exact containsChars_of_within key.data tag.data
    ((Split_part_within seg key ':' hkey).trans (Split_part_within tag seg ';' hseg))

/-! ## The claims -/

/-- C1: on a cursor whose column listing succeeds and which yields no row,
`ScanRow` leaves the destination unchanged but returns nil, not
`sql.ErrNoRows`: the loop body is never entered and the named result keeps its
zero value. -/
theorem ScanRow_empty_cursor_returns_nil (lower : CaseTable) (conv : Conv)
    (columns : List String) :
    ScanRow lower conv (some (freshCursor columns [])) (New (.struct sampleConfiguration.fields))
      = { rows := some (freshCursor columns []).exhausted,
          dest := New (.struct sampleConfiguration.fields),
          ret := .ok none } := by
  rfl

/-- C2: when no row matches, `GetConfiguration` does not return
`(nil, "", sql.ErrNoRows)`: it invokes `GetRequestTokenOAuth` once with an empty
client id and secret and returns the zero model with the exchanged token. -/
theorem GetConfiguration_no_row_exchanges_token :
    GetConfiguration sampleEnv emptyTableRepository "abc"
      = { ret := .ok { model := some (New (.struct sampleConfiguration.fields)),
                       token := "token:", err := none },
          calls := [{ id := "abc", clientId := "", clientSecret := "" }],
          rows := some (freshCursor ["id", "clientid", "clientsecret", "status"] []).exhausted } := by
  decide

/-- C3: for a cursor whose column listing succeeds, `Scans` leaves in the
destination slice the initial elements followed by one element per row whose
scan succeeded, in cursor order; a row whose scan failed contributes nothing.
Whenever the scan targets of a fresh element can be built, `Scans` returns
without a panic. -/
theorem Scans_appends_scanned_rows (lower : CaseTable) (conv : Conv) (rows : Rows)
    (columns : List String) (xs : Results) (fieldsIndex : FieldsIndex)
    (hcols : rows.Columns = .ok columns) :
    (Scans lower conv (some rows) xs fieldsIndex).dest.items
        = xs.items ++
          rows.pending.filterMap (scannedElem lower conv xs.Elem fieldsIndex columns)
      ∧ (Scans lower conv (some rows) xs fieldsIndex).dest.Elem = xs.Elem
      ∧ ((∃ targets, StructScanByIndex lower (some (New xs.Elem)) fieldsIndex columns
            = .ok targets) →
          ∃ err, (Scans lower conv (some rows) xs fieldsIndex).ret = .ok err) := by
  have hopen : rows.closed = false := by
    cases hc : rows.closed with
    | false => rfl
    | true => simp [Rows.Columns, hc] at hcols
  cases htargets : StructScanByIndex lower (some (New xs.Elem)) fieldsIndex columns with
  | ok targets =>
    have hloop := Scans_loop_closed_form lower conv xs.Elem fieldsIndex columns _ htargets
      rows.pending (rows.pending.length + 1) rows xs none hopen rfl (Nat.lt_succ_self _)
    simp [Scans, hcols, hloop]
  | error p =>
    have hnone : ∀ row, scannedElem lower conv xs.Elem fieldsIndex columns row = none := by
      intro row
      simp [scannedElem, htargets]
    have hfilter : rows.pending.filterMap (scannedElem lower conv xs.Elem fieldsIndex columns)
        = [] := by
      simp [List.filterMap_eq_nil_iff, hnone]
    rw [hfilter]
    cases hp : rows.pending with
    | nil =>
      have hloop : Scans.loop lower conv xs.Elem fieldsIndex columns (0 + 1) rows xs none
          = { rows := some rows.exhausted, dest := xs, ret := .ok none } := by
        unfold Scans.loop
        rw [Rows.Next_nil rows hopen hp]
      simp [Scans, hcols, hp, hloop]
    | cons row rest =>
      have hloop := Scans_loop_panic lower conv xs.Elem fieldsIndex columns p htargets
        (rest.length + 1) rows xs none row rest hopen hp
      simp [Scans, hcols, hp, hloop]

/-- Witness of C3: five rows of which the third does not scan give the four
elements of rows 1, 2, 4 and 5, in this order. -/
theorem Scans_appends_scanned_rows_witness :
    (freshCursor ["name"] fiveRows).Columns = .ok ["name"]
      ∧ (Scans sampleLower sampleConv (some (freshCursor ["name"] fiveRows))
          { Elem := nameType, items := [] } [("name", 0)]).dest.items
        = [nameElem "r1", nameElem "r2", nameElem "r4", nameElem "r5"] :=
  ⟨by decide,
    (Scans_appends_scanned_rows sampleLower sampleConv (freshCursor ["name"] fiveRows) ["name"]
      { Elem := nameType, items := [] } [("name", 0)] (by decide)).1.trans (by decide)⟩

/-- C4: `Scans` does not swallow the scan failure of the last row: with a first
row that scans and a second, last row that does not, it appends the first row
and returns the scan error of the second. -/
theorem Scans_last_row_failure_is_returned (lower : CaseTable) :
    Scans lower sampleConv (some (freshCursor ["name"] [[.str "r1"], [.null]]))
        { Elem := nameType, items := [] } [("name", 0)]
      = { rows := some (freshCursor ["name"] [[.str "r1"], [.null]]).exhausted,
          dest := { Elem := nameType, items := [nameElem "r1"] },
          ret := .ok (some (.scanColumn 0)) } := by
  rfl

/-- C5: `GetColumnIndexes` registers the tag value as it is written, without
lower-casing it: for fields tagged `column:foo`, `column:BAR` and one untagged
field the map holds `foo -> 0` and `BAR -> 1`, and has no entry `bar`. -/
theorem GetColumnIndexes_keeps_letter_case :
    GetColumnIndexes taggedType = .ok ([("BAR", 1), ("foo", 0)], none)
      ∧ FieldsIndex.get [("BAR", 1), ("foo", 0)] "bar" = none := by
  decide

/-- C6: binding is not case-insensitive on the side of the tag: with the map
that `GetColumnIndexes` builds for a field tagged `column:BAR`, the returned
columns `BAR` and `bar` both get a discard target, while `foo` is bound to
field 0. -/
theorem StructScanByIndex_upper_case_tag_unbound (lower : CaseTable) :
    GetColumnIndexes taggedType = .ok ([("BAR", 1), ("foo", 0)], none)
      ∧ StructScanByIndex lower (some (New taggedType)) [("BAR", 1), ("foo", 0)]
          ["foo", "BAR", "bar"]
        = .ok [Target.field 0, Target.ignore, Target.ignore] :=
  ⟨by decide, rfl⟩

/-- C7, as stated, fails on the code: for a destination whose field at
position 0 is unexported and the valid map `id -> 0`, the column `id` gives no
target list at all, because `Interface()` panics on the unexported field. -/
theorem StructScanByIndex_unexported_field_panics :
    FieldsIndex.Valid [("id", 0)] (New hiddenType).Typ.NumField
      ∧ StructScanByIndex sampleLower (some (New hiddenType)) [("id", 0)] ["id"]
        = .error (.unexportedField 0)
      ∧ ¬ ∃ r, StructScanByIndex sampleLower (some (New hiddenType)) [("id", 0)] ["id"] = .ok r
          ∧ r.length = ["id"].length :=
  ⟨FieldsIndex.valid_of_entries _ _ (by decide), by decide, by
    rintro ⟨r, hr, _⟩
    have hval : StructScanByIndex sampleLower (some (New hiddenType)) [("id", 0)] ["id"]
        = .error (.unexportedField 0) := by decide
    rw [hval] at hr
    exact absurd hr (by simp)⟩

/-- C7, amended: for a non-nil destination, a binding map with valid field
positions and a column list such that every field the map gives for a returned
column is exported, `StructScanByIndex` returns one target per column, in
column order: the address of field `m[lower(c)]` when the map has that key, a
discard target otherwise. A scan with these targets leaves unchanged every
field to which no returned column is mapped. -/
theorem StructScanByIndex_one_target_per_column (lower : CaseTable) (maps : Object)
    (fieldsIndex : FieldsIndex) (columns : List String)
    (hvalid : fieldsIndex.Valid maps.Typ.NumField)
    (hexp : fieldsIndex.Exported lower maps.Typ columns) :
    ∃ r, StructScanByIndex lower (some maps) fieldsIndex columns = .ok r
      ∧ r.length = columns.length
      ∧ (∀ k (hk : k < columns.length),
          r[k]? = some (match fieldsIndex.get (ToLower lower columns[k]) with
            | some index => Target.field index.toNat
            | none => Target.ignore))
      ∧ (∀ (conv : Conv) (rs : Rows) (j : Nat),
          (∀ c ∈ columns, fieldsIndex.get (ToLower lower c) ≠ some (j : Int)) →
          (rs.Scan conv r maps).1.Fields[j]? = maps.Fields[j]?) := by
  refine ⟨columns.map (targetOf lower fieldsIndex),
    StructScanByIndex_eq lower maps fieldsIndex hvalid columns hexp, by simp, ?_, ?_⟩
  · intro k hk
    simp only [List.getElem?_map, List.getElem?_eq_getElem hk, Option.map_some', targetOf]
  · intro conv rs j hj
    apply Rows.Scan_frame
    intro hmem
    obtain ⟨c, hc, hcj⟩ := List.mem_map.mp hmem
    unfold targetOf at hcj
    cases hget : fieldsIndex.get (ToLower lower c) with
    | none => simp [hget] at hcj
    | some index =>
      have hv := hvalid _ _ hget
      simp only [hget, Target.field.injEq] at hcj
      apply hj c hc
      rw [hget, ← hcj, Int.toNat_of_nonneg hv.1]

/-- Witness of C7: the columns `ID`, `extra_col` with the map `id -> 0` give
the address of field 0 followed by a discard target, and a scan with these
targets leaves field 1 unchanged. The lookup is lower-cased beyond ASCII too:
the column `ÉCOLE` is bound through the key `école`. -/
theorem StructScanByIndex_one_target_per_column_witness :
    FieldsIndex.Valid [("id", 0)] (New pairType).Typ.NumField
      ∧ FieldsIndex.Exported sampleLower [("id", 0)] (New pairType).Typ ["ID", "extra_col"]
      ∧ StructScanByIndex sampleLower (some (New pairType)) [("id", 0)] ["ID", "extra_col"]
        = .ok [Target.field 0, Target.ignore]
      ∧ (∀ (conv : Conv) (rs : Rows),
          (rs.Scan conv [Target.field 0, Target.ignore] (New pairType)).1.Fields[1]?
            = (New pairType).Fields[1]?)
      ∧ StructScanByIndex sampleLower (some (New schoolType)) [("école", 1), ("id", 0)]
          ["ÉCOLE", "Id"]
        = .ok [Target.field 1, Target.field 0] := by
  have hvalid : FieldsIndex.Valid [("id", 0)] (New pairType).Typ.NumField :=
    FieldsIndex.valid_of_entries _ _ (by decide)
  have hexp : FieldsIndex.Exported sampleLower [("id", 0)] (New pairType).Typ
      ["ID", "extra_col"] :=
    FieldsIndex.exported_of_fields _ _ _ _ (by decide)
  obtain ⟨r, hr, _, _, hframe⟩ :=
    StructScanByIndex_one_target_per_column sampleLower (New pairType) [("id", 0)]
      ["ID", "extra_col"] hvalid hexp
  have hval : StructScanByIndex sampleLower (some (New pairType)) [("id", 0)]
      ["ID", "extra_col"] = .ok [Target.field 0, Target.ignore] := by decide
  have hreq : r = [Target.field 0, Target.ignore] := by
    rw [hval] at hr
    exact (Except.ok.inj hr).symm
  subst hreq
  exact ⟨hvalid, hexp, hval, fun conv rs => hframe conv rs 1 (by decide), by decide⟩

/-- C8: `FindTag` does not tolerate a key without a value: when the key is the
last colon-separated part of a segment, the access `str2[j+1]` is out of range
and the call panics instead of returning `("", false)`. -/
theorem FindTag_key_without_value_panics :
    FindTag "column" "column" = .error (.indexOutOfRange 1 1)
      ∧ FindTag "column;size:10" "column" = .error (.indexOutOfRange 1 1)
      ∧ FindTag "type:column" "column" = .error (.indexOutOfRange 2 2) := by
  decide

/-- C9: other `key:value` pairs are not always ignored: a pair whose value is
`column` and which comes before the pair with the key `column` makes `FindTag`
panic, although the tag is a well-formed list with the pair `column:id`. -/
theorem FindTag_value_equal_to_key_panics :
    FindTag "name:column;column:id" "column" = .error (.indexOutOfRange 2 2)
      ∧ FindTag "size:10;column:id" "column" = .ok ("id", true) := by
  decide

/-- C10: `GetColumnIndexes` can panic on a struct type: for a struct whose
field has the tag `column` it returns neither a map nor an error, since
`FindTag` reads past the end of the split tag. -/
theorem GetColumnIndexes_struct_can_panic :
    GetColumnIndexes bareKeyType = .error (.indexOutOfRange 1 1) := by
  decide

/-- C11: `ScanRow` does not consume the first row for every struct
destination: for a destination whose field has the tag `column`, building the
binding map panics inside `FindTag` before `rows.Next()` is reached, so the
cursor is not advanced and no scan result is returned. -/
theorem ScanRow_bare_key_destination_panics (lower : CaseTable) (conv : Conv) :
    ScanRow lower conv (some (freshCursor ["id"] [[.str "r1"]])) (New bareKeyType)
      = { rows := some (freshCursor ["id"] [[.str "r1"]]),
          dest := New bareKeyType,
          ret := .error (.indexOutOfRange 1 1) } := by
  rfl

/-- C12: `GetDriver` answers `DriverNotSupport` for the nil handle and
otherwise decides by the driver type name alone: the four known names give
their dialects and every other name gives `DriverNotSupport`. -/
theorem GetDriver_by_type_name :
    GetDriver none = Driver.DriverNotSupport
      ∧ (∀ db : DB, db.driverType = "*pq.Driver" → GetDriver (some db) = Driver.DriverPostgres)
      ∧ (∀ db : DB, db.driverType = "*mysql.MySQLDriver" →
          GetDriver (some db) = Driver.DriverMysql)
      ∧ (∀ db : DB, db.driverType = "*mssql.Driver" → GetDriver (some db) = Driver.DriverMssql)
      ∧ (∀ db : DB, db.driverType = "*godror.drv" → GetDriver (some db) = Driver.DriverOracle)
      ∧ (∀ db : DB, db.driverType ≠ "*pq.Driver" → db.driverType ≠ "*mysql.MySQLDriver" →
          db.driverType ≠ "*mssql.Driver" → db.driverType ≠ "*godror.drv" →
          GetDriver (some db) = Driver.DriverNotSupport)
      ∧ (∀ db1 db2 : DB, db1.driverType = db2.driverType →
          GetDriver (some db1) = GetDriver (some db2)) := by
  refine ⟨rfl, ?_, ?_, ?_, ?_, ?_, ?_⟩
  · intro db h
    simp [GetDriver, h]
  · intro db h
    simp [GetDriver, h]
  · intro db h
    simp [GetDriver, h]
  · intro db h
    simp [GetDriver, h]
  · intro db h1 h2 h3 h4
    simp [GetDriver, h1, h2, h3, h4]
  · intro db1 db2 h
    simp [GetDriver, h]

/-- Witness of C12: a handle of the driver `*godror.drv` is classified as
Oracle, one of the driver `*sqlite3.SQLiteDriver` is not supported. -/
theorem GetDriver_by_type_name_witness :
    GetDriver (some { driverType := "*godror.drv", Query := fun _ _ => (none, none) })
        = Driver.DriverOracle
      ∧ GetDriver (some { driverType := "*sqlite3.SQLiteDriver", Query := fun _ _ => (none, none) })
        = Driver.DriverNotSupport :=
  ⟨GetDriver_by_type_name.2.2.2.2.1 _ (by decide),
    GetDriver_by_type_name.2.2.2.2.2.1 _ (by decide) (by decide) (by decide) (by decide)⟩

/-- C13: `GetConfiguration` does not surface a scan failure of the consumed
row: when the client id of the row is NULL, `ScanRow` returns the scan error,
yet the token exchange is invoked and the call returns the partly filled model
with a nil error. -/
theorem GetConfiguration_scan_error_is_dropped :
    (ScanRow sampleLower sampleConv (some (freshCursor configurationColumns [nullClientRow]))
        (New (.struct sampleConfiguration.fields))).ret = .ok (some (.scanColumn 1))
      ∧ GetConfiguration sampleEnv (repositoryOver [nullClientRow] sampleExchange) "abc"
        = { ret := .ok { model := some { Typ := .struct sampleConfiguration.fields,
                                         Fields := [.str "abc", .str "", .str "", .str ""] },
                         token := "token:", err := none },
            calls := [{ id := "abc", clientId := "", clientSecret := "" }],
            rows := some { columns := .ok configurationColumns, pending := [],
                           current := some nullClientRow, closed := false } } := by
  decide

/-- C14: when the query returns a cursor whose first row scans into the
`Configuration` model, and a service is registered for the id,
`GetConfiguration` invokes `GetRequestTokenOAuth` of that service exactly once,
with the `ClientId` and `ClientSecret` of the scanned model, and returns the
pointer to the scanned model, the exchanged token and the error of the
exchange; the model is returned also when the exchange fails. -/
theorem GetConfiguration_exchanges_once (env : Env) (s : SqlConfigurationRepository)
    (id : String) (db : DB) (rows : Rows) (qerr : Option Error) (columns : List String)
    (fieldsIndex : FieldsIndex) (targets : List Target) (row : Row) (rest : List Row)
    (model : Object) (repo : OAuth2UserRepository)
    (hdb : s.DB = some db)
    (hquery : db.Query (GetConfiguration.query env s) id = (some rows, qerr))
    (hcols : rows.Columns = .ok columns)
    (hidx : GetColumnIndexes (.struct env.Configuration.fields) = .ok (fieldsIndex, none))
    (htargets : StructScanByIndex env.toLower (some (New (.struct env.Configuration.fields)))
      fieldsIndex columns = .ok targets)
    (hp : rows.pending = row :: rest)
    (hscan : scanValues env.convertAssign targets row
      (New (.struct env.Configuration.fields)) = (model, none))
    (hrepo : List.lookup id s.OAuth2UserRepositories = some repo) :
    (GetConfiguration env s id).calls
        = [{ id := id,
             clientId := model.stringField env.Configuration.ClientId,
             clientSecret := model.stringField env.Configuration.ClientSecret }]
      ∧ (GetConfiguration env s id).ret
        = .ok { model := some model,
                token := (repo (model.stringField env.Configuration.ClientId)
                  (model.stringField env.Configuration.ClientSecret)).1,
                err := (repo (model.stringField env.Configuration.ClientId)
                  (model.stringField env.Configuration.ClientSecret)).2 } := by
  have hrow := ScanRow_first_row env.toLower env.convertAssign rows columns
    (New (.struct env.Configuration.fields)) fieldsIndex targets row rest hcols hidx htargets hp
  rw [hscan] at hrow
  simp [GetConfiguration, hdb, hquery, hrow, hrepo]

/-- Witness of C14: one matching row and a service whose exchange fails: the
service is invoked once with the client id and secret of the row, and the model
is returned together with the error of the exchange. -/
theorem GetConfiguration_exchanges_once_witness :
    (GetConfiguration sampleEnv (repositoryOver [goodRow] failingExchange) "abc").calls
        = [{ id := "abc", clientId := "client-1", clientSecret := "secret-1" }]
      ∧ (GetConfiguration sampleEnv (repositoryOver [goodRow] failingExchange) "abc").ret
        = .ok { model := some { Typ := .struct sampleConfiguration.fields, Fields := goodRow },
                token := "", err := some (.driver "exchange failed") } :=
  GetConfiguration_exchanges_once sampleEnv (repositoryOver [goodRow] failingExchange) "abc"
    (sampleDB (freshCursor configurationColumns [goodRow]))
    (freshCursor configurationColumns [goodRow]) none configurationColumns
    [("status", 3), ("clientsecret", 2), ("clientid", 1), ("id", 0)]
    [Target.field 0, Target.field 1, Target.field 2, Target.field 3] goodRow []
    { Typ := .struct sampleConfiguration.fields, Fields := goodRow } failingExchange
    rfl rfl (by decide) (by decide) (by decide) rfl (by decide) rfl

/-- C15: when the column listing of the cursor fails with the error `e`, both
`Scans` and `ScanRow` return `e` and leave the cursor and the destination as
they were: no row is reached and nothing is scanned. -/
theorem Scans_ScanRow_column_error (lower : CaseTable) (conv : Conv) (rows : Rows) (e : Error)
    (results : Results) (fieldsIndex : FieldsIndex) (result : Object)
    (hcols : rows.Columns = .error e) :
    Scans lower conv (some rows) results fieldsIndex
        = { rows := some rows, dest := results, ret := .ok (some e) }
      ∧ ScanRow lower conv (some rows) result
        = { rows := some rows, dest := result, ret := .ok (some e) } := by
  simp [Scans, ScanRow, hcols]

/-- Witness of C15: a cursor whose column listing fails, with one pending row. -/
theorem Scans_ScanRow_column_error_witness :
    brokenCursor.Columns = .error (.driver "no columns")
      ∧ Scans sampleLower sampleConv (some brokenCursor) { Elem := nameType, items := [] } [("name", 0)]
        = { rows := some brokenCursor, dest := { Elem := nameType, items := [] },
            ret := .ok (some (.driver "no columns")) }
      ∧ ScanRow sampleLower sampleConv (some brokenCursor) (nameElem "old")
        = { rows := some brokenCursor, dest := nameElem "old",
            ret := .ok (some (.driver "no columns")) } :=
  ⟨by decide,
    Scans_ScanRow_column_error sampleLower sampleConv brokenCursor (.driver "no columns")
      { Elem := nameType, items := [] } [("name", 0)] (nameElem "old") (by decide)⟩

/-- C16: `GetConfiguration` does not close its cursor on the success path: with
one matching row the call returns the model and the token, and the cursor is
left open, standing on that row. -/
theorem GetConfiguration_leaves_cursor_open :
    GetConfiguration sampleEnv (repositoryOver [goodRow] sampleExchange) "abc"
      = { ret := .ok { model := some { Typ := .struct sampleConfiguration.fields,
                                       Fields := goodRow },
                       token := "token:client-1", err := none },
          calls := [{ id := "abc", clientId := "client-1", clientSecret := "secret-1" }],
          rows := some { columns := .ok configurationColumns, pending := [],
                         current := some goodRow, closed := false } } := by
  decide

/-- C17: when the query succeeds and returns a cursor, the cursor is closed
whenever `GetConfigurations` returns, be it with the models or with the error of
`Scans`. -/
theorem GetConfigurations_closes_cursor (env : Env) (s : SqlConfigurationRepository)
    (db : DB) (rows : Rows) (r : ConfigurationsResult)
    (hdb : s.DB = some db)
    (hquery : db.Query (GetConfigurations.query env s) s.Active = (some rows, none))
    (hret : (GetConfigurations env s).ret = .ok r) :
    ∃ rs, (GetConfigurations env s).rows = some rs ∧ rs.closed = true := by
  unfold GetConfigurations at hret ⊢
  simp only [hdb, hquery] at hret ⊢
  cases hidx : GetColumnIndexes (.struct env.Configuration.fields) with
  | error p => simp [hidx] at hret
  | ok res =>
    obtain ⟨fieldsIndex, er1⟩ := res
    cases er1 with
    | some e => exact absurd hidx (GetColumnIndexes_struct_no_error _ _ _)
    | none =>
      simp only
      obtain ⟨rs, hrs⟩ := Scans_keeps_cursor env.toLower env.convertAssign rows
        { Elem := .struct env.Configuration.fields, items := [] } fieldsIndex
      refine ⟨rs.Close, ?_, rfl⟩
      split <;> simp [hrs]

/-- Witness of C17: two rows of which the last does not scan: `Scans` returns
its error, `GetConfigurations` returns it, and the cursor is closed. -/
theorem GetConfigurations_closes_cursor_witness :
    (GetConfigurations sampleEnv (repositoryOver [goodRow, nullClientRow] sampleExchange)).ret
        = .ok { models := none, err := some (.scanColumn 1) }
      ∧ ∃ rs, (GetConfigurations sampleEnv
          (repositoryOver [goodRow, nullClientRow] sampleExchange)).rows = some rs
        ∧ rs.closed = true :=
  ⟨by decide,
    GetConfigurations_closes_cursor sampleEnv
      (repositoryOver [goodRow, nullClientRow] sampleExchange)
      (sampleDB (freshCursor configurationColumns [goodRow, nullClientRow]))
      (freshCursor configurationColumns [goodRow, nullClientRow])
      { models := none, err := some (.scanColumn 1) } rfl rfl (by decide)⟩

/-- C18: every value of the map that `GetColumnIndexes` returns for a type is
the position of a field of that type, so `StructScanByIndex` applied to a value
of the type with this map never accesses a field that does not exist: for no
column list does it end in the panic of a field index out of range. -/
theorem GetColumnIndexes_positions_valid (lower : CaseTable) (modelType : RType)
    (m : FieldsIndex) (e : Option Error) (h : GetColumnIndexes modelType = .ok (m, e)) :
    (∀ k i, m.get k = some i → 0 ≤ i ∧ i < (modelType.NumField : Int))
      ∧ ∀ (s : Object) (columns : List String) (index : Int) (numField : Nat),
          s.Typ = modelType →
          StructScanByIndex lower (some s) m columns
            ≠ .error (.fieldIndexOutOfRange index numField) := by
  have hvalid := GetColumnIndexes_valid modelType m e h
  refine ⟨hvalid, ?_⟩
  intro s columns index numField hs
  subst hs
  exact StructScanByIndex_in_range lower s m hvalid columns index numField

/-- Witness of C18: the map built for the struct with the tags `column:foo` and
`column:BAR` holds the positions 0 and 1 of a struct with three fields. -/
theorem GetColumnIndexes_positions_valid_witness :
    GetColumnIndexes taggedType = .ok ([("BAR", 1), ("foo", 0)], none)
      ∧ (∀ k i, FieldsIndex.get [("BAR", 1), ("foo", 0)] k = some i →
          0 ≤ i ∧ i < (taggedType.NumField : Int))
      ∧ ∀ (s : Object) (columns : List String) (index : Int) (numField : Nat),
          s.Typ = taggedType →
          StructScanByIndex sampleLower (some s) [("BAR", 1), ("foo", 0)] columns
            ≠ .error (.fieldIndexOutOfRange index numField) :=
  ⟨by decide, GetColumnIndexes_positions_valid sampleLower taggedType _ none (by decide)⟩

/-- C19: `FindTag` matches the key only as a whole colon-separated part: when no
part of any segment of the tag equals the key, it returns `("", false)`, also
when the key occurs in the tag as a substring; and the guard
`strings.Contains(tag, key)` never changes the result, which is that of the two
loops alone. -/
theorem FindTag_matches_whole_parts (tag key : String) :
    ((∀ seg ∈ Split tag ';', key ∉ Split seg ':') → FindTag tag key = .ok ("", false))
      ∧ FindTag tag key = FindTag.segments key (Split tag ';') := by
  constructor
  · intro h
    unfold FindTag
    split
    · exact FindTag_segments_none key _ h
    · rfl
  · unfold FindTag
    split
    · rfl
    · rename_i hcontains
      symm
      apply FindTag_segments_none
      intro seg hseg hkey
      exact hcontains (Contains_of_part tag key seg hseg hkey)

/-- Witness of C19: the key `column` is a substring of the tag
`columns:x;my_column:y` but no part of it, and `FindTag` returns `("", false)`. -/
theorem FindTag_matches_whole_parts_witness :
    Contains "columns:x;my_column:y" "column" = true
      ∧ (∀ seg ∈ Split "columns:x;my_column:y" ';', "column" ∉ Split seg ':')
      ∧ FindTag "columns:x;my_column:y" "column" = .ok ("", false) :=
  ⟨by decide, by decide,
    (FindTag_matches_whole_parts "columns:x;my_column:y" "column").1 (by decide)⟩

/-- C20: `NewSqlConfigurationRepository` replaces only empty settings: the
stored status is `status` for an empty argument and the argument otherwise,
the stored active value is `A` for an empty argument and the argument
otherwise, the stored driver is `GetDriver(db)`, and the handle, the table name
and the services are stored as given. -/
theorem NewSqlConfigurationRepository_defaults (db : Option DB) (tableName : String)
    (services : List (String × OAuth2UserRepository)) (status active : String) :
    (NewSqlConfigurationRepository db tableName services status active).Status
        = (if status = "" then "status" else status)
      ∧ (NewSqlConfigurationRepository db tableName services status active).Active
        = (if active = "" then "A" else active)
      ∧ (NewSqlConfigurationRepository db tableName services status active).Driver
        = GetDriver db
      ∧ (NewSqlConfigurationRepository db tableName services status active).DB = db
      ∧ (NewSqlConfigurationRepository db tableName services status active).TableName
        = tableName
      ∧ (NewSqlConfigurationRepository db tableName services status active).OAuth2UserRepositories
        = services := by
  have hlen : ∀ s : String, s.length = 0 ↔ s = "" := by
    intro s
    constructor
    · intro h
      have hd : s.data = [] := List.length_eq_zero.mp h
      exact String.ext hd
    · intro h
      subst h
      rfl
  refine ⟨?_, ?_, rfl, rfl, rfl, rfl⟩
  · simp only [NewSqlConfigurationRepository]
    by_cases h : status = ""
    · simp [h]
    · simp [h, (hlen status).not.mpr h]
  · simp only [NewSqlConfigurationRepository]
    by_cases h : active = ""
    · simp [h]
    · simp [h, (hlen active).not.mpr h]

end OAuth2
